import Mathlib

/-!
# Verification of the srsRAN RA scheduler and Tx buffer pool

Shallow embedding of `lib/phy/upper/tx_buffer_pool_impl.cpp` and
`lib/scheduler/common_scheduling/ra_scheduler.cpp`, together with proofs of
the specified properties.  Slots are modelled as natural numbers, machine
integers as `Nat` with explicit truncation where the source casts.
-/

namespace SrsranPool

/-- Buffer identifier `trx_buffer_identifier`: `invalid` (free slot),
`unknown` (anonymous/SI reservation) or a tagged `(rnti, harq_id, is_dl)`
triple.  The header is not under `src/`; the three identifier classes are
taken from the spec's data model. -/
inductive TrxId where
  | invalid : TrxId
  | unknown : TrxId
  | tagged (rnti : Nat) (harqId : Nat) (isDl : Bool) : TrxId
deriving DecidableEq, Repr, Inhabited

/-- Status of an individual transmit buffer. -/
inductive BufStatus where
  | available : BufStatus
  | reserved : BufStatus
  | locked : BufStatus
deriving DecidableEq, Repr, Inhabited

/-- Result of `tx_buffer_impl::reserve` (`tx_buffer_status`). -/
inductive TxBufferStatus where
  | successful : TxBufferStatus
  | alreadyInUse : TxBufferStatus
  | insufficientCb : TxBufferStatus
deriving DecidableEq, Repr, Inhabited

/-- Modelled from the spec: `tx_buffer_impl` (not under `src/`).  A buffer
holds a lock/reservation status and the number of codeblocks of its last
reservation. -/
structure TxBuf where
  status : BufStatus
  nofCodeblocks : Nat
deriving DecidableEq, Repr, Inhabited

/-- Modelled from the spec: `tx_buffer_impl::reserve`.  Fails with
`already_in_use` while the buffer is locked, with `insufficient CBs` when
the shared codeblock pool cannot cover the request; otherwise records the
new codeblock count. -/
def TxBuf.reserveCb (b : TxBuf) (avail n : Nat) : TxBufferStatus × TxBuf :=
  if b.status = BufStatus.locked then (TxBufferStatus.alreadyInUse, b)
  else if avail + b.nofCodeblocks < n then (TxBufferStatus.insufficientCb, b)
  else (TxBufferStatus.successful, { status := BufStatus.reserved, nofCodeblocks := n })

/-- Modelled from the spec: a buffer is free when it holds no reservation. -/
def TxBuf.isFree (b : TxBuf) : Bool := b.status = BufStatus.available

/-- Modelled from the spec: the lock bit held by the encoder thread. -/
def TxBuf.isLocked (b : TxBuf) : Bool := b.status = BufStatus.locked

/-- Modelled from the spec: `tx_buffer_impl::expire` attempts to free the
buffer; it fails (returns `false`) while the buffer is locked, otherwise
releases the codeblocks. -/
def TxBuf.expire (b : TxBuf) : Bool × TxBuf :=
  if b.status = BufStatus.locked then (false, b)
  else (true, { status := BufStatus.available, nofCodeblocks := 0 })

/-- Reason a pool reservation returns an invalid `unique_tx_buffer`; each
constructor corresponds to one warning/early return of
`tx_buffer_pool_impl::reserve`. -/
inductive ReserveFail where
  | stopped : ReserveFail
  | retxIdNotFound : ReserveFail
  | insufficientBuffers : ReserveFail
  | cbMismatch : ReserveFail
  | alreadyInUse : ReserveFail
  | insufficientCb : ReserveFail
deriving DecidableEq, Repr, Inhabited

/-- One pool slot: the parallel `identifiers[i]` / `expirations[i]` /
`buffers[i]` entries of `tx_buffer_pool_impl` bundled together
(`none` models `null_expiration`). -/
structure PoolEntry where
  identifier : TrxId
  expiration : Option Nat
  buffer : TxBuf
deriving DecidableEq, Repr, Inhabited

/-- State of `tx_buffer_pool_impl`. -/
structure TxBufferPool where
  stopped : Bool
  entries : List PoolEntry
  nofCodeblocksAvail : Nat
  expireTimeoutSlots : Nat
deriving DecidableEq, Repr, Inhabited

/-- The identifier search of `tx_buffer_pool_impl::reserve`: first the slot
holding `id` itself; failing that, an `invalid` slot when the reservation
is for new data, otherwise the "identifier for retransmissions not found"
failure. -/
def reserveFind (p : TxBufferPool) (id : TrxId) (newData : Bool) : Except ReserveFail Nat :=
  match p.entries.findIdx? (fun e => e.identifier = id) with
  | some i => Except.ok i
  | none =>
    if newData then
      match p.entries.findIdx? (fun e => e.identifier = TrxId.invalid) with
      | some i => Except.ok i
      | none => Except.error ReserveFail.insufficientBuffers
    else Except.error ReserveFail.retxIdNotFound

/-- The tail of `tx_buffer_pool_impl::reserve(slot, id, ...)` once the
search has produced buffer index `i`: the retransmission codeblock-count
check, the codeblock reservation, and — only after both succeed — the
identifier/expiration update. -/
def reserveAtIndex (p : TxBufferPool) (slot : Nat) (id : TrxId) (n : Nat)
    (newData : Bool) (i : Nat) : Except ReserveFail Nat × TxBufferPool :=
  let e := p.entries.getD i default
  -- Make sure that the codeblocks do not change for retransmissions.
  if ¬newData ∧ n ≠ e.buffer.nofCodeblocks then (Except.error ReserveFail.cbMismatch, p)
  else
    match e.buffer.reserveCb p.nofCodeblocksAvail n with
    | (TxBufferStatus.alreadyInUse, _) => (Except.error ReserveFail.alreadyInUse, p)
    | (TxBufferStatus.insufficientCb, _) => (Except.error ReserveFail.insufficientCb, p)
    | (TxBufferStatus.successful, b) =>
      -- Update identifier and expiration.
      (Except.ok i,
       { p with
         entries := p.entries.set i ⟨id, some (slot + p.expireTimeoutSlots), b⟩,
         nofCodeblocksAvail := p.nofCodeblocksAvail + e.buffer.nofCodeblocks - n })

/-- Embedding of `tx_buffer_pool_impl::reserve(slot, id, nof_codeblocks, new_data)`.
Returns the chosen buffer index on success (a valid `unique_tx_buffer`)
or the failure reason (an invalid one), together with the updated pool. -/
def poolReserveId (p : TxBufferPool) (slot : Nat) (id : TrxId) (n : Nat) (newData : Bool) :
    Except ReserveFail Nat × TxBufferPool :=
  -- No more reservations are allowed if the pool is stopped.
  if p.stopped then (Except.error ReserveFail.stopped, p)
  else
    match reserveFind p id newData with
    | Except.error f => (Except.error f, p)
    | Except.ok i => reserveAtIndex p slot id n newData i

/-- Embedding of `tx_buffer_pool_impl::reserve(slot, nof_codeblocks)`: anonymous (SI)
reservation, marking the slot with the `unknown` identifier. -/
def poolReserveAnon (p : TxBufferPool) (slot : Nat) (n : Nat) :
    Except ReserveFail Nat × TxBufferPool :=
  if p.stopped then (Except.error ReserveFail.stopped, p)
  else
    match p.entries.findIdx? (fun e => e.identifier = TrxId.invalid) with
    | none => (Except.error ReserveFail.insufficientBuffers, p)
    | some i =>
      let e := p.entries.getD i default
      match e.buffer.reserveCb p.nofCodeblocksAvail n with
      | (TxBufferStatus.alreadyInUse, _) => (Except.error ReserveFail.alreadyInUse, p)
      | (TxBufferStatus.insufficientCb, _) => (Except.error ReserveFail.insufficientCb, p)
      | (TxBufferStatus.successful, b) =>
        (Except.ok i,
         { p with
           entries := p.entries.set i ⟨TrxId.unknown, some (slot + p.expireTimeoutSlots), b⟩,
           nofCodeblocksAvail := p.nofCodeblocksAvail + e.buffer.nofCodeblocks - n })

/-- Body of the `tx_buffer_pool_impl::run_slot` loop for one reserved slot
(entries whose identifier is `invalid` are skipped by the loop's
`find_if`). -/
def runSlotEntry (timeout slot : Nat) (e : PoolEntry) : PoolEntry :=
  if e.identifier = TrxId.invalid then e
  else
    let isFree := e.buffer.isFree
    match e.expiration with
    | some es =>
      -- A buffer is expired if the expiration slot is ≤ the current slot.
      if es ≤ slot then
        let r := e.buffer.expire
        if r.1 then ⟨TrxId.invalid, none, r.2⟩
        else
          -- Buffer not available: increase the expiration time.
          ⟨e.identifier, some (slot + timeout), r.2⟩
      else if isFree then ⟨TrxId.invalid, none, e.buffer⟩ else e
    | none => if isFree then ⟨TrxId.invalid, none, e.buffer⟩ else e

/-- Embedding of `tx_buffer_pool_impl::run_slot`: expire or free reserved buffers;
codeblocks released by an expiry return to the shared pool. -/
def poolRunSlot (p : TxBufferPool) (slot : Nat) : TxBufferPool :=
  let entries := p.entries.map (runSlotEntry p.expireTimeoutSlots slot)
  { p with
    entries := entries,
    nofCodeblocksAvail := p.nofCodeblocksAvail +
      ((p.entries.map (fun e =>
          e.buffer.nofCodeblocks -
            (runSlotEntry p.expireTimeoutSlots slot e).buffer.nofCodeblocks)).sum) }

/-- A one-buffer pool before any reservation (used by concrete
instantiations below). -/
def poolFresh : TxBufferPool :=
  { stopped := false,
    entries := [⟨TrxId.invalid, none, ⟨BufStatus.available, 0⟩⟩],
    nofCodeblocksAvail := 4, expireTimeoutSlots := 10 }

/-- The fresh pool after a successful new-data reservation for a tagged
identifier. -/
def poolC2 : TxBufferPool :=
  (poolReserveId poolFresh 0 (TrxId.tagged 0x4601 0 true) 2 true).2

/-- Pool `poolC2` as observed when `stop()` returns (flag set; the single buffer
is not locked, so the busy-wait exits immediately). -/
def poolC2stop : TxBufferPool := { poolC2 with stopped := true }

/-- A two-buffer pool at its expiration tick: buffer 0 reserved and
unlocked, buffer 1 anonymous and still locked. -/
def poolC4 : TxBufferPool :=
  { stopped := false,
    entries := [⟨TrxId.tagged 9 1 true, some 5, ⟨BufStatus.reserved, 2⟩⟩,
                ⟨TrxId.unknown, some 5, ⟨BufStatus.locked, 3⟩⟩],
    nofCodeblocksAvail := 0, expireTimeoutSlots := 7 }

/-- Relation for `tx_buffer_pool_impl::stop` between the pool state at the call and the
state when `stop` returns: the busy-wait (10 µs sleeps) is modelled by the
relation holding only when every buffer has been observed unlocked.  `stop`
writes the `stopped` flag and touches neither identifiers nor
expirations. -/
def stopReturns (p p' : TxBufferPool) : Prop :=
  p'.stopped = true ∧
  p'.entries.map PoolEntry.identifier = p.entries.map PoolEntry.identifier ∧
  p'.entries.map PoolEntry.expiration = p.entries.map PoolEntry.expiration ∧
  p'.expireTimeoutSlots = p.expireTimeoutSlots ∧
  ∀ e ∈ p'.entries, e.buffer.isLocked = false

instance (p p' : TxBufferPool) : Decidable (stopReturns p p') := by
  unfold stopReturns
  infer_instance

end SrsranPool

namespace SrsranRa

open SrsranPool

/-- Half-open interval (`interval<...>` of slots, symbols, CRBs or PRBs):
`[start, stop)`. -/
structure Interv where
  start : Nat
  stop : Nat
deriving DecidableEq, Repr, Inhabited

/-- Embedding of `interval::length()`. -/
def Interv.length (i : Interv) : Nat := i.stop - i.start

/-- Embedding of `interval::contains(x)`: `start ≤ x < stop`. -/
def Interv.containsP (i : Interv) (x : Nat) : Prop := i.start ≤ x ∧ x < i.stop

instance (i : Interv) (x : Nat) : Decidable (i.containsP x) := by
  unfold Interv.containsP
  infer_instance

/-- Embedding of `interval::overlaps`: two half-open ranges intersect. -/
def Interv.overlaps (a b : Interv) : Bool :=
  decide (a.start < b.stop) && decide (b.start < a.stop)

/-- Embedding of `slot_point`: an absolute slot count at a given numerology μ
(`scs = 15·2^μ kHz`); a frame spans `10·2^μ` slots. -/
structure SlotPoint where
  numerology : Nat
  count : Nat
deriving DecidableEq, Repr, Inhabited

/-- Embedding of `slot_point::nof_slots_per_frame()`. -/
def SlotPoint.nofSlotsPerFrame (s : SlotPoint) : Nat := 10 * 2 ^ s.numerology

/-- Embedding of `slot_point::slot_index()`: slot index within the frame. -/
def SlotPoint.slotIndex (s : SlotPoint) : Nat := s.count % s.nofSlotsPerFrame

/-- Embedding of `get_ra_rnti` (ra_scheduler.cpp): TS 38.321, 5.1.3.
`RA-RNTI = 1 + s_id + 14·t_id + 14·80·f_id + 14·80·8·ul_carrier_id`,
computed in unsigned arithmetic and truncated by the `uint16_t` result. -/
def get_ra_rnti (slRx : SlotPoint) (symbolIndex frequencyIndex : Nat) (isSul : Bool) : Nat :=
  (1 + symbolIndex + 14 * slRx.slotIndex + 14 * 80 * frequencyIndex +
      14 * 80 * 8 * (if isSul then 1 else 0)) % 65536

/-- Table 6.1.2.1.1-5 of TS 38.214 (`DELTAS` in ra_scheduler.cpp). -/
def DELTAS : List Nat := [2, 3, 4, 6]

/-- Embedding of `get_msg3_delay` (ra_scheduler.cpp): `k2 + DELTAS[μ]` for a PUSCH SCS
numerology μ.  The source sanity-checks `μ ≤ 3` ("PUSCH subcarrier spacing
not supported for MSG3 delay") before the array access; the failed check is
modelled as `none` (fail closed). -/
def get_msg3_delay (k2 : Nat) (mu : Nat) : Option Nat :=
  if mu ≤ 3 then some (k2 + DELTAS.getD mu 0) else none

/-- A filled `grant_info {scs, symbols, crbs}`. -/
structure GrantInfo where
  scs : Nat
  symbols : Interv
  crbs : Interv
deriving DecidableEq, Repr, Inhabited

/-- Embedding of `cell_slot_resource_grid::used_crbs(bwp, symbols)`: the CRB bitmap over
`[0, bwp.stop)` where a CRB is used iff it lies outside the BWP or some
filled grant covers it on an intersecting symbol range. -/
def usedCrbs (g : List GrantInfo) (bwp : Interv) (symbols : Interv) : List Bool :=
  (List.range bwp.stop).map (fun crb =>
    decide (crb < bwp.start) ||
      g.any (fun gr => gr.symbols.overlaps symbols &&
        decide (gr.crbs.start ≤ crb) && decide (crb < gr.crbs.stop)))

/-- Maximal runs of `false` bits of a bitmap, as half-open index
intervals (helper for `find_empty_interval_of_length`). -/
def freeRunsAux : List Bool → Nat → Option Nat → List Interv
  | [], _, none => []
  | [], pos, some st => [⟨st, pos⟩]
  | b :: rest, pos, none =>
    if b then freeRunsAux rest (pos + 1) none else freeRunsAux rest (pos + 1) (some pos)
  | b :: rest, pos, some st =>
    if b then ⟨st, pos⟩ :: freeRunsAux rest (pos + 1) none
    else freeRunsAux rest (pos + 1) (some st)

/-- All maximal free runs of a used-CRB bitmap. -/
def freeRuns (bm : List Bool) : List Interv := freeRunsAux bm 0 none

/-- Modelled from the spec: `find_empty_interval_of_length(bitmap, L, 0)`
(rb helper not under `src/`).  Returns the first free interval of length
`L`, truncated to `L`; when the bitmap has no such gap, the first longest
free interval found. -/
def findEmptyIntervalOfLength (bm : List Bool) (L : Nat) : Interv :=
  match (freeRuns bm).find? (fun r => decide (L ≤ r.length)) with
  | some r => ⟨r.start, r.start + L⟩
  | none =>
    (freeRuns bm).foldl (fun best r => if best.length < r.length then r else best) ⟨0, 0⟩

/-- Embedding of `crb_to_prb(bwp, crbs)`: PRBs are CRBs shifted down by the BWP start. -/
def crbToPrb (bwp : Interv) (crbs : Interv) : Interv :=
  ⟨crbs.start - bwp.start, crbs.stop - bwp.start⟩

/-- Capacity of the `pending_msg3s` array (`MAX_NOF_MSG3`; the scheduler
header is not under `src/`, the concrete size is a model parameter and
every theorem depends only on indices being reduced modulo it). -/
def MAX_NOF_MSG3 : Nat := 64

/-- A detected PRACH preamble (`rach_indication_message::preamble`). -/
structure Preamble where
  preambleId : Nat
  tcRnti : Nat
  ta : Nat
deriving DecidableEq, Repr, Inhabited

/-- Modelled from the spec: the Msg3 UL HARQ process held by each
`pending_msg3` (`ul_harq_process`, not under `src/`): emptiness, process
id, last allocation (PRBs, MCS), retransmission counters and the
pending-retx flag. -/
structure UlHarq where
  isEmpty : Bool
  pid : Nat
  txSlot : Nat
  prbs : Interv
  mcs : Nat
  nofRetx : Nat
  maxRetx : Nat
  pendingRetx : Bool
  tbs : Nat
deriving DecidableEq, Repr, Inhabited

/-- Modelled from the spec: `harq.new_tx(slot, prbs, mcs, max_retx)` starts
a new transmission on an empty HARQ and fails otherwise. -/
def UlHarq.newTx (h : UlHarq) (slot : Nat) (prbs : Interv) (mcs maxRetx : Nat) :
    Bool × UlHarq :=
  if h.isEmpty then
    (true, { h with isEmpty := false, txSlot := slot, prbs := prbs, mcs := mcs,
                    nofRetx := 0, maxRetx := maxRetx, pendingRetx := false })
  else (false, h)

/-- One slot of the `pending_msg3s` array. -/
structure PendingMsg3 where
  preamble : Preamble
  harq : UlHarq
deriving DecidableEq, Repr, Inhabited

/-- Embedding of `pending_rar_t`: RAR request accumulated from RACH indications.  The
window `[winStart, winStop)` is the RAR window. -/
structure PendingRar where
  raRnti : Nat
  prachSlotRx : Nat
  winStart : Nat
  winStop : Nat
  tcRntis : List Nat
deriving DecidableEq, Repr, Inhabited

/-- A DL PDCCH entry of the slot result (`pdcch_dl_information`; only the
RNTI is relevant to the claims). -/
structure DlPdcch where
  rnti : Nat
deriving DecidableEq, Repr, Inhabited

/-- A `rar_ul_grant` inside a RAR PDU. -/
structure RarUlGrant where
  rapid : Nat
  ta : Nat
  tcRnti : Nat
  tdIdx : Nat
  mcs : Nat
deriving DecidableEq, Repr, Inhabited

/-- A `rar_information` entry of the DL slot result. -/
structure RarInfo where
  raRnti : Nat
  prbs : Interv
  grants : List RarUlGrant
deriving DecidableEq, Repr, Inhabited

/-- An `ul_sched_info` (Msg3 PUSCH) entry of the UL slot result. -/
structure UlSchedInfo where
  rnti : Nat
  prbs : Interv
  harqId : Nat
  newData : Bool
  tbs : Nat
deriving DecidableEq, Repr, Inhabited

/-- Embedding of `cell_slot_resource_allocator`: per-slot grids and result lists, plus
the CCE-availability oracle of the PDCCH allocator for this slot. -/
structure SlotAlloc where
  slot : Nat
  dlGrid : List GrantInfo
  ulGrid : List GrantInfo
  dlPdcchs : List DlPdcch
  rarGrants : List RarInfo
  puschs : List UlSchedInfo
  cceDlAvail : Bool
deriving DecidableEq, Repr, Inhabited

/-- One `pusch_time_domain_resource_allocation` (k2 value and symbols). -/
structure PuschTdRes where
  k2 : Nat
  symbols : Interv
deriving DecidableEq, Repr, Inhabited

/-- A cached `{nof_prbs, tbs_bytes}` pair (`prbs_tbs` of `rar_data` /
`msg3_data`). -/
structure PrbsTbs where
  nofPrbs : Nat
  tbsBytes : Nat
deriving DecidableEq, Repr, Inhabited

/-- The slice of `cell_configuration` and of the constructor-cached
`ra_scheduler` state used by RAR scheduling.  `muUl : Fin 4` reflects that
a PUSCH numerology above 3 is rejected at initialization
(`get_msg3_delay`'s sanity check). -/
structure CellCfg where
  k0 : Nat
  pdschSymbols : Interv
  bwpDl : Interv
  bwpUl : Interv
  muUl : Fin 4
  scsVal : Nat
  puschTdList : List PuschTdRes
  msg3Data : List PrbsTbs
  nofPrbsPerRar : Nat
  msg3McsIndex : Nat
  rarCap : Nat
  dlPdcchCap : Nat
  puschCap : Nat
  isUlEnabled : Nat → Bool

/-- The value `pusch_td.k2 + DELTAS[μ]`: the Msg3 delay used inside the scheduler
(total because the configuration carries `μ < 4`). -/
def CellCfg.msg3Delay (cfg : CellCfg) (td : PuschTdRes) : Nat :=
  td.k2 + DELTAS.getD cfg.muUl.val 0

/-- The mutable scheduler state threaded through one `run_slot`: the ring
of slot allocations (indexed by the offset from `slot_tx`) and the
`pending_msg3s` array. -/
structure RaState where
  res : List SlotAlloc
  msg3s : List PendingMsg3
deriving DecidableEq, Inhabited

/-- Embedding of `res_alloc[k]`. -/
def getSlot (res : List SlotAlloc) (k : Nat) : SlotAlloc := res.getD k default

/-- In-place mutation of `res_alloc[k]`. -/
def updateAt (res : List SlotAlloc) (k : Nat) (f : SlotAlloc → SlotAlloc) :
    List SlotAlloc :=
  res.set k (f (getSlot res k))

/-- The committed `rar_information` list of `res_alloc[k]`. -/
def rarGrantsAt (st : RaState) (k : Nat) : List RarInfo :=
  (getSlot st.res k).rarGrants

/-- Modelled from the spec: `pdcch_resource_allocator::alloc_pdcch_common`
(allocator sources not under `src/`): a fallible factory that records the
PDCCH in the slot's DL list, failing when the list is full or no CCEs fit
(the latter abstracted by the slot's oracle bit). -/
def allocPdcchCommon (cap : Nat) (a : SlotAlloc) (rnti : Nat) : Option SlotAlloc :=
  if a.dlPdcchs.length < cap ∧ a.cceDlAvail then
    some { a with dlPdcchs := a.dlPdcchs ++ [⟨rnti⟩] }
  else none

/-- Embedding of `msg3_alloc_candidate`. -/
structure Msg3Candidate where
  crbs : Interv
  puschTdResIndex : Nat
deriving DecidableEq, Repr, Inhabited

/-- Steps 3–6 of `ra_scheduler::schedule_rar`: accumulate Msg3 candidates
across the PUSCH time-domain resources in declared order. -/
def collectMsg3Candidates (cfg : CellCfg) (res : List SlotAlloc) (maxNofAllocs : Nat) :
    List Msg3Candidate :=
  (List.range cfg.puschTdList.length).foldl
    (fun cands puschidx =>
      let td := cfg.puschTdList.getD puschidx default
      let puschResMaxAllocs := maxNofAllocs - cands.length
      let msg3Alloc := getSlot res (cfg.msg3Delay td)
      -- Verify the Msg3 delay lands on an UL slot.
      if ¬cfg.isUlEnabled msg3Alloc.slot then cands
      else
        -- Check space in the UL sched result for remaining Msg3s.
        let listSpace := cfg.puschCap - msg3Alloc.puschs.length
        let m := min puschResMaxAllocs listSpace
        if m = 0 then cands
        else
          -- Check CRBs available in PUSCH for Msg3.
          let nofPrbsPerMsg3 := (cfg.msg3Data.getD puschidx default).nofPrbs
          let used := usedCrbs msg3Alloc.ulGrid cfg.bwpUl td.symbols
          let msg3Crbs := findEmptyIntervalOfLength used (nofPrbsPerMsg3 * m)
          let m := msg3Crbs.length / nofPrbsPerMsg3
          if m = 0 then cands
          else
            cands ++ (List.range m).map (fun i =>
              ⟨⟨msg3Crbs.start + i * nofPrbsPerMsg3,
                msg3Crbs.start + (i + 1) * nofPrbsPerMsg3⟩, puschidx⟩))
    []

/-- One iteration of the Msg3-candidate loop of
`ra_scheduler::fill_rar_grant`: fill the candidate's UL grid, append its
Msg3 PUSCH (`new_data = true`, `harq_id` from the pending Msg3) and start
the Msg3 HARQ (`new_tx` with `max_msg3_retxs = 4`). -/
def fillMsg3Candidate (cfg : CellCfg) (st : RaState) (ct : Msg3Candidate × Nat) :
    RaState :=
  let j := ct.2 % MAX_NOF_MSG3
  let pm := st.msg3s.getD j default
  let td := cfg.puschTdList.getD ct.1.puschTdResIndex default
  let msg3Delay := cfg.msg3Delay td
  let prbs := crbToPrb cfg.bwpUl ct.1.crbs
  let msg3Slot := (getSlot st.res msg3Delay).slot
  { res := updateAt st.res msg3Delay (fun a =>
      { a with
        ulGrid := a.ulGrid ++ [⟨cfg.scsVal, td.symbols, ct.1.crbs⟩],
        puschs := a.puschs ++
          [{ rnti := pm.preamble.tcRnti, prbs := prbs, harqId := pm.harq.pid,
             newData := true,
             tbs := (cfg.msg3Data.getD ct.1.puschTdResIndex default).tbsBytes }] }),
    msg3s := st.msg3s.set j
      { pm with harq := (pm.harq.newTx msg3Slot prbs cfg.msg3McsIndex 4).2 } }

/-- Embedding of `ra_scheduler::fill_rar_grant`: the atomic commit.  Writes the RAR DCI
into the PDCCH just allocated, fills the DL grid, appends the
`rar_information` with one `rar_ul_grant` per Msg3 candidate, and runs
`fillMsg3Candidate` for every candidate paired with its TC-RNTI. -/
def fillRarGrant (cfg : CellCfg) (rar : PendingRar) (rarCrbs : Interv)
    (cands : List Msg3Candidate) (st : RaState) : RaState :=
  let rarPrbs := crbToPrb cfg.bwpDl rarCrbs
  let pairs := cands.zip rar.tcRntis
  let grants := pairs.map (fun ct =>
    let pm := st.msg3s.getD (ct.2 % MAX_NOF_MSG3) default
    { rapid := pm.preamble.preambleId, ta := pm.preamble.ta,
      tcRnti := pm.preamble.tcRnti, tdIdx := ct.1.puschTdResIndex,
      mcs := cfg.msg3McsIndex : RarUlGrant })
  let res := updateAt st.res cfg.k0 (fun a =>
    { a with
      dlGrid := a.dlGrid ++ [⟨cfg.scsVal, cfg.pdschSymbols, rarCrbs⟩],
      rarGrants := a.rarGrants ++ [⟨rar.raRnti, rarPrbs, grants⟩] })
  pairs.foldl (fillMsg3Candidate cfg) { st with res := res }

/-- Embedding of `ra_scheduler::schedule_rar`: try to allocate PDCCH + PDSCH for a RAR
and PUSCH grants for its Msg3s; returns the number of allocations
(0 = failure) and the updated state. -/
def scheduleRar (cfg : CellCfg) (rar : PendingRar) (st : RaState) : Nat × RaState :=
  let nofPrbsPerRar := cfg.nofPrbsPerRar
  let pdcchAlloc := getSlot st.res 0
  let pdschAlloc := getSlot st.res cfg.k0
  -- 1. Check space in the DL sched result for the RAR.
  if cfg.rarCap ≤ pdschAlloc.rarGrants.length ∨ cfg.dlPdcchCap ≤ pdcchAlloc.dlPdcchs.length
  then (0, st)
  else
    let maxNofAllocs := rar.tcRntis.length
    -- 2. Find available RBs in PDSCH for the RAR grant.
    let used := usedCrbs pdschAlloc.dlGrid cfg.bwpDl cfg.pdschSymbols
    let rarCrbs := findEmptyIntervalOfLength used (nofPrbsPerRar * maxNofAllocs)
    let maxNofAllocs := rarCrbs.length / nofPrbsPerRar
    if maxNofAllocs = 0 then (0, st)
    else
      -- 3.–6. Find RBs in PUSCH for the Msg3 grants.
      let cands := collectMsg3Candidates cfg st.res maxNofAllocs
      let rarCrbs : Interv := ⟨rarCrbs.start, rarCrbs.start + nofPrbsPerRar * cands.length⟩
      -- 7. Find space in PDCCH for the RAR.
      match allocPdcchCommon cfg.dlPdcchCap pdcchAlloc rar.raRnti with
      | none => (0, st)
      | some pdcchAlloc' =>
        -- 8. Fill RAR and Msg3 PDSCH, PUSCH and DCI.
        let st := { st with res := st.res.set 0 pdcchAlloc' }
        let st := fillRarGrant cfg rar rarCrbs cands st
        (cands.length, st)

/-- The preamble loop of `ra_scheduler::handle_rach_indication_impl`: a
preamble whose `pending_msg3s[tc_rnti % MAX_NOF_MSG3]` slot already holds a
non-empty HARQ is dropped with a warning; otherwise its TC-RNTI is appended
to the pending RAR and the preamble is stored in the slot. -/
def processPreambles (msg3s : List PendingMsg3) (tcRntis : List Nat) :
    List Preamble → List PendingMsg3 × List Nat
  | [] => (msg3s, tcRntis)
  | p :: rest =>
    if ¬(msg3s.getD (p.tcRnti % MAX_NOF_MSG3) default).harq.isEmpty then
      processPreambles msg3s tcRntis rest
    else
      processPreambles
        (msg3s.set (p.tcRnti % MAX_NOF_MSG3)
          { (msg3s.getD (p.tcRnti % MAX_NOF_MSG3) default) with preamble := p })
        (tcRntis ++ [p.tcRnti]) rest

/-- Trace events of the pending-RAR loop: a RAR discarded for an expired
window, or attempted with `schedule_rar` returning `n` allocations. -/
inductive REvent where
  | discarded (raRnti : Nat) : REvent
  | attempted (raRnti : Nat) (n : Nat) : REvent
deriving DecidableEq, Repr, Inhabited

/-- Output of the pending-RAR loop. -/
structure LoopOut where
  pending : List PendingRar
  st : RaState
  trace : List REvent
deriving DecidableEq, Inhabited

/-- Step 4 of `ra_scheduler::run_slot`: iterate over the pending RARs (in
arrival order) at `slot = slot_tx`: outside the window a passed RAR is
erased with a log, a future one stops the loop; inside the window
`schedule_rar` is attempted and its result decides between erasing the
RAR, dropping the first `n` TC-RNTIs and stopping, or moving on. -/
def processPendingRars (cfg : CellCfg) (slot : Nat) :
    List PendingRar → RaState → LoopOut
  | [], st => ⟨[], st, []⟩
  | r :: rest, st =>
    if ¬(r.winStart ≤ slot ∧ slot < r.winStop) then
      if r.winStop ≤ slot then
        -- Window has passed: discard the RAR and continue.
        let out := processPendingRars cfg slot rest st
        ⟨out.pending, out.st, REvent.discarded r.raRnti :: out.trace⟩
      else
        -- Window has not started: stop, RARs are ordered by slot.
        ⟨r :: rest, st, []⟩
    else
      let n := (scheduleRar cfg r st).1
      let st1 := (scheduleRar cfg r st).2
      if 0 < n then
        if n = r.tcRntis.length then
          let out := processPendingRars cfg slot rest st1
          ⟨out.pending, out.st, REvent.attempted r.raRnti n :: out.trace⟩
        else
          -- Remove only the allocated Msg3 grants and stop iterating.
          ⟨{ r with tcRntis := r.tcRntis.drop n } :: rest, st1,
            [REvent.attempted r.raRnti n]⟩
      else
        let out := processPendingRars cfg slot rest st1
        ⟨r :: out.pending, out.st, REvent.attempted r.raRnti n :: out.trace⟩

/-- An empty slot allocation for absolute slot `s` with CCEs available. -/
def emptySlotAlloc (s : Nat) : SlotAlloc :=
  { slot := s, dlGrid := [], ulGrid := [], dlPdcchs := [], rarGrants := [],
    puschs := [], cceDlAvail := true }

/-- An idle Msg3 UL HARQ process. -/
def emptyHarq : UlHarq :=
  { isEmpty := true, pid := 0, txSlot := 0, prbs := ⟨0, 0⟩, mcs := 0,
    nofRetx := 0, maxRetx := 0, pendingRetx := false, tbs := 0 }

/-- A `pending_msg3s` array with every HARQ idle. -/
def freshMsg3s : List PendingMsg3 :=
  List.replicate MAX_NOF_MSG3 ⟨default, emptyHarq⟩

/-- A small FDD cell configuration: `k0 = 1`, one PUSCH time-domain
resource with `k2 = 4` at μ = 1 (Msg3 delay 7), 6-PRB BWPs, 1 PRB per RAR,
3 PRBs / 11 TBS bytes per Msg3.  The PUSCH result list capacity is 0, so
every Msg3 list-space check fails. -/
def cfgC1 : CellCfg :=
  { k0 := 1, pdschSymbols := ⟨2, 4⟩, bwpDl := ⟨0, 6⟩, bwpUl := ⟨0, 6⟩,
    muUl := 1, scsVal := 1,
    puschTdList := [⟨4, ⟨0, 4⟩⟩], msg3Data := [⟨3, 11⟩],
    nofPrbsPerRar := 1, msg3McsIndex := 0,
    rarCap := 2, dlPdcchCap := 2, puschCap := 0,
    isUlEnabled := fun _ => true }

/-- Configuration `cfgC1` with room for Msg3 PUSCHs (capacity 4), so RAR allocation can
succeed. -/
def cfgW : CellCfg := { cfgC1 with puschCap := 4 }

/-- Eight empty slot allocations for slots 100..107 and an idle
`pending_msg3s` array. -/
def stC1 : RaState :=
  { res := (List.range 8).map (fun k => emptySlotAlloc (100 + k)),
    msg3s := freshMsg3s }

/-- A pending RAR holding one TC-RNTI whose window `[95, 105)` contains
the current slot 100. -/
def rarC1 : PendingRar :=
  { raRnti := 141, prachSlotRx := 90, winStart := 95, winStop := 105,
    tcRntis := [0x4601] }

/-- A pending RAR whose window `[95, 100)` has just passed at slot 100. -/
def rarExpired : PendingRar :=
  { raRnti := 142, prachSlotRx := 89, winStart := 95, winStop := 100,
    tcRntis := [0x33] }

/-- A RACH preamble: id 3, TC-RNTI 0x4601, TA 12. -/
def preambleW : Preamble := ⟨3, 0x4601, 12⟩

/-- A second preamble colliding with `preambleW` modulo `MAX_NOF_MSG3`
(0x4641 % 64 = 0x4601 % 64 = 1). -/
def preambleBusy : Preamble := ⟨7, 0x4641, 9⟩

/-- Array `freshMsg3s` with slot 1 (= 0x4601 % 64) holding a non-empty HARQ. -/
def busyMsg3s : List PendingMsg3 :=
  freshMsg3s.set 1 ⟨⟨3, 0x4601, 12⟩, { emptyHarq with isEmpty := false }⟩

end SrsranRa

open SrsranPool SrsranRa

theorem list_getD_map_of_lt {α β : Type} [Inhabited α] [Inhabited β]
    (f : α → β) (l : List α) (i : Nat) (h : i < l.length) :
    (l.map f).getD i default = f (l.getD i default) := by
  rw [List.getD_eq_getElem _ _ (by simpa using h), List.getD_eq_getElem _ _ h]
  simp

theorem list_getD_set {α : Type} [Inhabited α] :
    ∀ (l : List α) (i : Nat) (x : α) (j : Nat),
      (l.set i x).getD j default =
        if i = j ∧ i < l.length then x else l.getD j default := by
  intro l
  induction l with
  | nil => intro i x j; simp
  | cons a t ih =>
    intro i x j
    cases i with
    | zero =>
      cases j with
      | zero => simp
      | succ m => simp
    | succ m' =>
      cases j with
      | zero => simp
      | succ m =>
        simp only [List.set, List.getD_cons_succ]
        rw [ih]
        have hiff : (m' + 1 = m + 1 ∧ m' + 1 < (a :: t).length) ↔
            (m' = m ∧ m' < t.length) := by
          simp only [List.length_cons]
          omega
        by_cases h : m' = m ∧ m' < t.length
        · rw [if_pos h, if_pos (hiff.mpr h)]
        · rw [if_neg h, if_neg (fun hc => h (hiff.mp hc))]

instance {ε α : Type} [DecidableEq ε] [DecidableEq α] : DecidableEq (Except ε α) :=
  fun a b =>
    match a, b with
    | Except.ok x, Except.ok y =>
      if h : x = y then isTrue (by rw [h]) else isFalse (by intro hc; cases hc; exact h rfl)
    | Except.error x, Except.error y =>
      if h : x = y then isTrue (by rw [h]) else isFalse (by intro hc; cases hc; exact h rfl)
    | Except.ok _, Except.error _ => isFalse (by intro hc; cases hc)
    | Except.error _, Except.ok _ => isFalse (by intro hc; cases hc)

theorem poolReserveId_snd (p : TxBufferPool) (slot n : Nat) (id : TrxId)
    (newData : Bool) :
    (poolReserveId p slot id n newData).2 = p ∨
    ∃ i, (poolReserveId p slot id n newData).1 = Except.ok i := by
  unfold poolReserveId reserveAtIndex
  split
  · exact Or.inl rfl
  · split
    · exact Or.inl rfl
    · dsimp only
      split
      · exact Or.inl rfl
      · split
        · exact Or.inl rfl
        · exact Or.inl rfl
        · exact Or.inr ⟨_, rfl⟩

theorem poolReserveAnon_snd (p : TxBufferPool) (slot n : Nat) :
    (poolReserveAnon p slot n).2 = p ∨
    ∃ i, (poolReserveAnon p slot n).1 = Except.ok i := by
  unfold poolReserveAnon
  split
  · exact Or.inl rfl
  · split
    · exact Or.inl rfl
    · dsimp only
      split
      · exact Or.inl rfl
      · exact Or.inl rfl
      · exact Or.inr ⟨_, rfl⟩

/-- C9: `get_msg3_delay` returns `k2 + Δ[μ]` with `Δ = [2,3,4,6]` for every
numerology μ ≤ 3 (the table access is in bounds there), and fails closed
for μ = 4 (240 kHz). -/
theorem C9_msg3_delay (k2 mu : Nat) (h : mu ≤ 3) :
    get_msg3_delay k2 mu = some (k2 + DELTAS.getD mu 0) ∧
    DELTAS = [2, 3, 4, 6] ∧
    get_msg3_delay k2 4 = none := by
  refine ⟨?_, rfl, rfl⟩
  unfold get_msg3_delay
  rw [if_pos h]

theorem C9_msg3_delay_witness :
    (1 : Nat) ≤ 3 ∧ get_msg3_delay 4 1 = some (4 + DELTAS.getD 1 0) :=
  ⟨by decide, (C9_msg3_delay 4 1 (by decide)).1⟩

/-- C8: `get_ra_rnti` is bit-exact: for `s_id < 14`, `f_id < 8` and a PRACH
slot index `t_id < 80` it equals
`1 + s_id + 14·t_id + 14·80·f_id + 14·80·8·ul_carrier_id`; in particular
for `s_id = 0`, slot index 10, `f_id = 0`, non-SUL it is 141. -/
theorem C8_ra_rnti_bit_exact (sl : SlotPoint) (s f : Nat) (sul : Bool)
    (hs : s < 14) (hf : f < 8) (ht : sl.slotIndex < 80) :
    get_ra_rnti sl s f sul =
      1 + s + 14 * sl.slotIndex + 14 * 80 * f +
        14 * 80 * 8 * (if sul then 1 else 0) ∧
    get_ra_rnti ⟨1, 10⟩ 0 0 false = 141 := by
  constructor
  · unfold get_ra_rnti
    apply Nat.mod_eq_of_lt
    cases sul <;> simp <;> omega
  · rfl

theorem C8_ra_rnti_witness :
    SlotPoint.slotIndex ⟨1, 10⟩ < 80 ∧ get_ra_rnti ⟨1, 10⟩ 0 0 false = 141 :=
  ⟨by decide, (C8_ra_rnti_bit_exact ⟨1, 10⟩ 0 0 false (by decide) (by decide)
      (by decide)).2⟩

/-- C1: counter-evidence.  On a state with free DL grid and CCEs but no
space in any Msg3 PUSCH list, `schedule_rar` collects zero Msg3 candidates
yet still allocates the RAR PDCCH and appends an empty `rar_information`
before returning 0: a 0-return of `schedule_rar` does leave partial state
behind (the missing `max_nof_allocs == 0` early-exit of spec §4.4.6
step 5). -/
theorem C1_schedule_rar_zero_return_partial_state :
    (scheduleRar cfgC1 rarC1 stC1).1 = 0 ∧
    (getSlot stC1.res 0).dlPdcchs = [] ∧
    (getSlot stC1.res cfgC1.k0).rarGrants = [] ∧
    (getSlot (scheduleRar cfgC1 rarC1 stC1).2.res 0).dlPdcchs = [⟨141⟩] ∧
    (getSlot (scheduleRar cfgC1 rarC1 stC1).2.res cfgC1.k0).rarGrants =
      [⟨141, ⟨0, 0⟩, []⟩] :=
  ⟨rfl, rfl, rfl, rfl, rfl⟩

/-- C10: a failed reservation (either overload) leaves the pool — in
particular its identifier and expiration entries — exactly as it was:
identifier and expiration are written only on the success path, after all
failure checks and the codeblock reservation. -/
theorem C10_reserve_failure_leaves_pool_unchanged (p : TxBufferPool) (slot n : Nat)
    (id : TrxId) (newData : Bool) :
    (∀ f, (poolReserveId p slot id n newData).1 = Except.error f →
       (poolReserveId p slot id n newData).2 = p) ∧
    (∀ f, (poolReserveAnon p slot n).1 = Except.error f →
       (poolReserveAnon p slot n).2 = p) := by
  constructor
  · intro f hf
    rcases poolReserveId_snd p slot n id newData with h | ⟨i, hok⟩
    · exact h
    · rw [hok] at hf
      cases hf
  · intro f hf
    rcases poolReserveAnon_snd p slot n with h | ⟨i, hok⟩
    · exact h
    · rw [hok] at hf
      cases hf

theorem C10_reserve_failure_witness :
    (poolReserveId poolC2stop 3 (TrxId.tagged 1 0 true) 2 true).1 =
      Except.error ReserveFail.stopped ∧
    (poolReserveId poolC2stop 3 (TrxId.tagged 1 0 true) 2 true).2 = poolC2stop :=
  ⟨rfl,
   (C10_reserve_failure_leaves_pool_unchanged poolC2stop 3 2 (TrxId.tagged 1 0 true)
      true).1 ReserveFail.stopped rfl⟩

theorem poolRunSlot_entry (p : TxBufferPool) (slot i : Nat)
    (h : i < p.entries.length) :
    (poolRunSlot p slot).entries.getD i default =
      runSlotEntry p.expireTimeoutSlots slot (p.entries.getD i default) := by
  unfold poolRunSlot
  exact list_getD_map_of_lt _ _ _ h

/-- C4: on `run_slot(slot)`, a reserved buffer whose expiration is due
(`expiration_slot ≤ slot`) is freed on that tick — identifier set to
`invalid`, expiration cleared — when it is not locked; when it is still
locked its expiration is reset to `slot + expire_timeout_slots` and its
identifier (and buffer) are kept; a reserved, non-free buffer whose
expiration lies in the future is untouched. -/
theorem C4_pool_run_slot_expiry (p : TxBufferPool) (slot i : Nat)
    (h : i < p.entries.length)
    (hid : (p.entries.getD i default).identifier ≠ TrxId.invalid) :
    ∀ es, (p.entries.getD i default).expiration = some es →
      (es ≤ slot →
        ((p.entries.getD i default).buffer.isLocked = false →
          ((poolRunSlot p slot).entries.getD i default).identifier = TrxId.invalid ∧
          ((poolRunSlot p slot).entries.getD i default).expiration = none) ∧
        ((p.entries.getD i default).buffer.isLocked = true →
          ((poolRunSlot p slot).entries.getD i default).identifier =
            (p.entries.getD i default).identifier ∧
          ((poolRunSlot p slot).entries.getD i default).expiration =
            some (slot + p.expireTimeoutSlots) ∧
          ((poolRunSlot p slot).entries.getD i default).buffer =
            (p.entries.getD i default).buffer)) ∧
      (slot < es → (p.entries.getD i default).buffer.isFree = false →
        (poolRunSlot p slot).entries.getD i default = p.entries.getD i default) := by
  intro es hes
  rw [poolRunSlot_entry p slot i h]
  revert hid hes
  generalize p.entries.getD i default = E
  intro hid hes
  constructor
  · intro hle
    constructor
    · intro hnl
      have hnl' : ¬E.buffer.status = BufStatus.locked := by
        simpa [TxBuf.isLocked] using hnl
      simp [runSlotEntry, hid, hes, hle, TxBuf.expire, hnl']
    · intro hl
      have hl' : E.buffer.status = BufStatus.locked := by
        simpa [TxBuf.isLocked] using hl
      simp [runSlotEntry, hid, hes, hle, TxBuf.expire, hl']
  · intro hgt hnf
    have hle : ¬ es ≤ slot := by omega
    simp [runSlotEntry, hid, hes, hle, hnf]

theorem C4_pool_run_slot_witness :
    0 < poolC4.entries.length ∧
    ((poolRunSlot poolC4 6).entries.getD 0 default).identifier = TrxId.invalid ∧
    ((poolRunSlot poolC4 6).entries.getD 1 default).identifier = TrxId.unknown ∧
    ((poolRunSlot poolC4 6).entries.getD 1 default).expiration = some (6 + 7) := by
  refine ⟨by decide, ?_, ?_, ?_⟩
  · exact (((C4_pool_run_slot_expiry poolC4 6 0 (by decide) (by decide)) 5 rfl).1
      (by decide)).1 (by decide) |>.1
  · exact ((((C4_pool_run_slot_expiry poolC4 6 1 (by decide) (by decide)) 5 rfl).1
      (by decide)).2 (by decide)).1
  · exact ((((C4_pool_run_slot_expiry poolC4 6 1 (by decide) (by decide)) 5 rfl).1
      (by decide)).2 (by decide)).2.1

theorem poolReserveId_found (p : TxBufferPool) (slot n : Nat) (id : TrxId)
    (newData : Bool) (i : Nat) (hs : p.stopped = false)
    (hfind : p.entries.findIdx? (fun e => e.identifier = id) = some i) :
    poolReserveId p slot id n newData = reserveAtIndex p slot id n newData i := by
  unfold poolReserveId reserveFind
  rw [if_neg (by simp [hs]), hfind]

theorem poolReserveId_retxNotFound (p : TxBufferPool) (slot n : Nat) (id : TrxId)
    (hs : p.stopped = false)
    (hfind : p.entries.findIdx? (fun e => e.identifier = id) = none) :
    poolReserveId p slot id n false =
      (Except.error ReserveFail.retxIdNotFound, p) := by
  unfold poolReserveId reserveFind
  rw [if_neg (by simp [hs]), hfind]
  rfl

theorem poolReserveId_noFree (p : TxBufferPool) (slot n : Nat) (id : TrxId)
    (hs : p.stopped = false)
    (hfind : p.entries.findIdx? (fun e => e.identifier = id) = none)
    (hinv : p.entries.findIdx? (fun e => e.identifier = TrxId.invalid) = none) :
    poolReserveId p slot id n true =
      (Except.error ReserveFail.insufficientBuffers, p) := by
  unfold poolReserveId reserveFind
  rw [if_neg (by simp [hs]), hfind, hinv]
  rfl

theorem poolReserveId_fresh (p : TxBufferPool) (slot n : Nat) (id : TrxId) (j : Nat)
    (hs : p.stopped = false)
    (hfind : p.entries.findIdx? (fun e => e.identifier = id) = none)
    (hinv : p.entries.findIdx? (fun e => e.identifier = TrxId.invalid) = some j) :
    poolReserveId p slot id n true = reserveAtIndex p slot id n true j := by
  unfold poolReserveId reserveFind
  rw [if_neg (by simp [hs]), hfind, hinv]
  rfl

/-- C6: search order and failure kinds of the identified `reserve`:
the slot holding `id` is looked up first; a missing identifier with
`new_data = false` fails with "identifier for retransmissions not found",
with `new_data = true` an `invalid` slot is taken instead (or the
reservation fails for lack of buffers); a retransmission whose codeblock
count differs from the previous reservation fails, a locked target buffer
fails ("HARQ already in use"), and a stopped pool rejects everything. -/
theorem C6_reserve_search_order (p : TxBufferPool) (slot n : Nat) (id : TrxId)
    (newData : Bool) :
    (p.stopped = true →
      (poolReserveId p slot id n newData).1 = Except.error ReserveFail.stopped) ∧
    (p.stopped = false →
      (∀ i, p.entries.findIdx? (fun e => e.identifier = id) = some i →
        ((newData = false → n ≠ (p.entries.getD i default).buffer.nofCodeblocks →
            (poolReserveId p slot id n newData).1 =
              Except.error ReserveFail.cbMismatch) ∧
         ((p.entries.getD i default).buffer.isLocked = true →
            (newData = true ∨ n = (p.entries.getD i default).buffer.nofCodeblocks) →
            (poolReserveId p slot id n newData).1 =
              Except.error ReserveFail.alreadyInUse) ∧
         ((poolReserveId p slot id n newData).1 = Except.ok i ∨
          (poolReserveId p slot id n newData).1 = Except.error ReserveFail.cbMismatch ∨
          (poolReserveId p slot id n newData).1 =
            Except.error ReserveFail.alreadyInUse ∨
          (poolReserveId p slot id n newData).1 =
            Except.error ReserveFail.insufficientCb))) ∧
      (p.entries.findIdx? (fun e => e.identifier = id) = none →
        ((newData = false →
            (poolReserveId p slot id n newData).1 =
              Except.error ReserveFail.retxIdNotFound) ∧
         (newData = true →
           (p.entries.findIdx? (fun e => e.identifier = TrxId.invalid) = none →
             (poolReserveId p slot id n newData).1 =
               Except.error ReserveFail.insufficientBuffers) ∧
           (∀ j, p.entries.findIdx? (fun e => e.identifier = TrxId.invalid) = some j →
             ((poolReserveId p slot id n newData).1 = Except.ok j ∨
              (poolReserveId p slot id n newData).1 =
                Except.error ReserveFail.alreadyInUse ∨
              (poolReserveId p slot id n newData).1 =
                Except.error ReserveFail.insufficientCb)))))) := by
  constructor
  · intro hs
    unfold poolReserveId
    rw [if_pos hs]
  · intro hs
    constructor
    · intro i hfind
      rw [poolReserveId_found p slot n id newData i hs hfind]
      simp only [reserveAtIndex]
      refine ⟨?_, ?_, ?_⟩
      · intro hnd hne
        rw [if_pos ⟨by simp [hnd], hne⟩]
      · intro hl hok
        have hl' : (p.entries.getD i default).buffer.status = BufStatus.locked := by
          simpa [TxBuf.isLocked] using hl
        rw [if_neg (by rcases hok with h | h <;> simp [h])]
        unfold TxBuf.reserveCb
        rw [if_pos hl']
      · by_cases hc : ¬newData = true ∧ n ≠ (p.entries.getD i default).buffer.nofCodeblocks
        · rw [if_pos hc]
          exact Or.inr (Or.inl rfl)
        · rw [if_neg hc]
          unfold TxBuf.reserveCb
          by_cases hl : (p.entries.getD i default).buffer.status = BufStatus.locked
          · rw [if_pos hl]
            exact Or.inr (Or.inr (Or.inl rfl))
          · rw [if_neg hl]
            by_cases ha : p.nofCodeblocksAvail +
                (p.entries.getD i default).buffer.nofCodeblocks < n
            · rw [if_pos ha]
              exact Or.inr (Or.inr (Or.inr rfl))
            · rw [if_neg ha]
              exact Or.inl rfl
    · intro hfind
      constructor
      · intro hnd
        subst hnd
        rw [poolReserveId_retxNotFound p slot n id hs hfind]
      · intro hnd
        subst hnd
        constructor
        · intro hinv
          rw [poolReserveId_noFree p slot n id hs hfind hinv]
        · intro j hinv
          rw [poolReserveId_fresh p slot n id j hs hfind hinv]
          simp only [reserveAtIndex]
          rw [if_neg (by simp)]
          unfold TxBuf.reserveCb
          by_cases hl : (p.entries.getD j default).buffer.status = BufStatus.locked
          · rw [if_pos hl]
            exact Or.inr (Or.inl rfl)
          · rw [if_neg hl]
            by_cases ha : p.nofCodeblocksAvail +
                (p.entries.getD j default).buffer.nofCodeblocks < n
            · rw [if_pos ha]
              exact Or.inr (Or.inr rfl)
            · rw [if_neg ha]
              exact Or.inl rfl

theorem C6_reserve_search_witness :
    poolC2.stopped = false ∧
    poolC2.entries.findIdx?
      (fun e => e.identifier = TrxId.tagged 0x4601 0 true) = some 0 ∧
    (poolReserveId poolC2 1 (TrxId.tagged 0x4601 0 true) 3 false).1 =
      Except.error ReserveFail.cbMismatch ∧
    (poolReserveId poolC2 1 (TrxId.tagged 0x9 9 false) 1 false).1 =
      Except.error ReserveFail.retxIdNotFound := by
  refine ⟨rfl, by decide, ?_, ?_⟩
  · exact (((C6_reserve_search_order poolC2 1 3 (TrxId.tagged 0x4601 0 true)
      false).2 rfl).1 0 (by decide)).1 rfl (by decide)
  · exact ((((C6_reserve_search_order poolC2 1 1 (TrxId.tagged 0x9 9 false)
      false).2 rfl).2 (by decide)).1) rfl

/-- C2 counterexample: `stop()` does not clear identifiers.  Starting from
a fresh pool, reserve a buffer for a tagged identifier; `stop()` (modelled
by `stopReturns`, which the unlocked pool satisfies with only the `stopped`
flag set) leaves that identifier in place, so not every identifier equals
`invalid` after `stop()` returns. -/
theorem C2_stop_keeps_identifiers_counterexample :
    stopReturns poolC2 poolC2stop ∧
    (poolC2stop.entries.getD 0 default).identifier =
      TrxId.tagged 0x4601 0 true := by
  constructor
  · decide
  · decide

/-- C2 (amended): after `stop()` returns, every subsequent `reserve` (either
overload) returns an invalid buffer, and every buffer has been observed
unlocked; the identifiers are left as they were (they are not reset). -/
theorem C2_pool_stop_postcondition (p p' : TxBufferPool) (h : stopReturns p p') :
    (∀ slot id n nd, (poolReserveId p' slot id n nd).1 =
        Except.error ReserveFail.stopped) ∧
    (∀ slot n, (poolReserveAnon p' slot n).1 =
        Except.error ReserveFail.stopped) ∧
    (∀ e ∈ p'.entries, e.buffer.isLocked = false) ∧
    p'.entries.map PoolEntry.identifier = p.entries.map PoolEntry.identifier := by
  obtain ⟨h1, h2, -, -, h5⟩ := h
  refine ⟨?_, ?_, h5, h2⟩
  · intro slot id n nd
    unfold poolReserveId
    rw [if_pos h1]
  · intro slot n
    unfold poolReserveAnon
    rw [if_pos h1]

theorem C2_pool_stop_witness :
    stopReturns poolC2 poolC2stop ∧
    (poolReserveId poolC2stop 7 TrxId.unknown 1 true).1 =
      Except.error ReserveFail.stopped ∧
    (poolReserveAnon poolC2stop 7 1).1 = Except.error ReserveFail.stopped :=
  ⟨by decide,
   (C2_pool_stop_postcondition poolC2 poolC2stop (by decide)).1 7 TrxId.unknown 1 true,
   (C2_pool_stop_postcondition poolC2 poolC2stop (by decide)).2.1 7 1⟩

/-- C7: duplicate-preamble suppression while draining a RACH indication.
The appended TC-RNTIs are exactly those of the preambles whose
`pending_msg3s[tc_rnti % MAX_NOF_MSG3]` slot held an idle HARQ (in order);
no HARQ state is changed by the ingest; the stored preamble of a slot is
the last accepted preamble targeting it, and in particular slots holding a
non-empty HARQ keep their stored preamble. -/
theorem C7_duplicate_preamble_suppression (msg3s : List PendingMsg3) (tcs : List Nat)
    (ps : List Preamble) (hlen : msg3s.length = MAX_NOF_MSG3) :
    (processPreambles msg3s tcs ps).2 =
      tcs ++ (ps.filter (fun p =>
        (msg3s.getD (p.tcRnti % MAX_NOF_MSG3) default).harq.isEmpty)).map
          Preamble.tcRnti ∧
    (∀ j, ((processPreambles msg3s tcs ps).1.getD j default).harq =
      (msg3s.getD j default).harq) ∧
    (∀ j, ((processPreambles msg3s tcs ps).1.getD j default).preamble =
      (ps.filter (fun p => decide (p.tcRnti % MAX_NOF_MSG3 = j) &&
          (msg3s.getD j default).harq.isEmpty)).getLastD
        (msg3s.getD j default).preamble) := by
  induction ps generalizing msg3s tcs hlen with
  | nil =>
    refine ⟨by simp [processPreambles], fun j => rfl, fun j => by simp [processPreambles]⟩
  | cons p rest ih =>
    by_cases hocc : (msg3s.getD (p.tcRnti % MAX_NOF_MSG3) default).harq.isEmpty = true
    · -- Slot idle: the preamble is recorded.
      have hj0lt : p.tcRnti % MAX_NOF_MSG3 < msg3s.length := by
        rw [hlen]
        exact Nat.mod_lt _ (by decide)
      have hstep : processPreambles msg3s tcs (p :: rest) =
          processPreambles
            (msg3s.set (p.tcRnti % MAX_NOF_MSG3)
              { (msg3s.getD (p.tcRnti % MAX_NOF_MSG3) default) with preamble := p })
            (tcs ++ [p.tcRnti]) rest := by
        simp only [processPreambles]
        rw [if_neg (not_not_intro hocc)]
      have hlen1 : (msg3s.set (p.tcRnti % MAX_NOF_MSG3)
          { (msg3s.getD (p.tcRnti % MAX_NOF_MSG3) default) with preamble := p }).length =
          MAX_NOF_MSG3 := by
        simpa using hlen
      have hharq : ∀ j, ((msg3s.set (p.tcRnti % MAX_NOF_MSG3)
            { (msg3s.getD (p.tcRnti % MAX_NOF_MSG3) default) with
              preamble := p }).getD j default).harq =
          (msg3s.getD j default).harq := by
        intro j
        rw [list_getD_set]
        split
        · rename_i hcond
          rw [← hcond.1]
        · rfl
      obtain ⟨ih1, ih2, ih3⟩ := ih _ (tcs ++ [p.tcRnti]) hlen1
      refine ⟨?_, ?_, ?_⟩
      · rw [hstep, ih1]
        have hfeq : rest.filter (fun q =>
              ((msg3s.set (p.tcRnti % MAX_NOF_MSG3)
                { (msg3s.getD (p.tcRnti % MAX_NOF_MSG3) default) with
                  preamble := p }).getD (q.tcRnti % MAX_NOF_MSG3) default).harq.isEmpty)
            = rest.filter (fun q =>
              (msg3s.getD (q.tcRnti % MAX_NOF_MSG3) default).harq.isEmpty) := by
          apply List.filter_congr
          intro q _
          rw [hharq]
        rw [hfeq, List.filter_cons, if_pos hocc]
        simp
      · intro j
        rw [hstep, ih2 j, hharq j]
      · intro j
        rw [hstep, ih3 j]
        have hfeq : rest.filter (fun q => decide (q.tcRnti % MAX_NOF_MSG3 = j) &&
              ((msg3s.set (p.tcRnti % MAX_NOF_MSG3)
                { (msg3s.getD (p.tcRnti % MAX_NOF_MSG3) default) with
                  preamble := p }).getD j default).harq.isEmpty)
            = rest.filter (fun q => decide (q.tcRnti % MAX_NOF_MSG3 = j) &&
              (msg3s.getD j default).harq.isEmpty) := by
          rw [hharq j]
        rw [hfeq]
        by_cases hj : p.tcRnti % MAX_NOF_MSG3 = j
        · have hpre : ((msg3s.set (p.tcRnti % MAX_NOF_MSG3)
              { (msg3s.getD (p.tcRnti % MAX_NOF_MSG3) default) with
                preamble := p }).getD j default).preamble = p := by
            rw [list_getD_set, if_pos ⟨hj, hj0lt⟩]
          have hocc2 : (msg3s.getD j default).harq.isEmpty = true := by
            rw [← hj]
            exact hocc
          rw [hpre, List.filter_cons,
            if_pos (by simp only [Bool.and_eq_true, decide_eq_true_eq]; exact ⟨hj, hocc2⟩),
            List.getLastD_cons]
        · have hpre : ((msg3s.set (p.tcRnti % MAX_NOF_MSG3)
              { (msg3s.getD (p.tcRnti % MAX_NOF_MSG3) default) with
                preamble := p }).getD j default).preamble =
              (msg3s.getD j default).preamble := by
            rw [list_getD_set, if_neg (fun hc => hj hc.1)]
          rw [hpre, List.filter_cons, if_neg (by simp [hj])]
    · -- Slot occupied by a non-empty HARQ: the preamble is dropped.
      have hstep : processPreambles msg3s tcs (p :: rest) =
          processPreambles msg3s tcs rest := by
        simp only [processPreambles]
        rw [if_pos hocc]
      obtain ⟨ih1, ih2, ih3⟩ := ih msg3s tcs hlen
      refine ⟨?_, ?_, ?_⟩
      · rw [hstep, ih1, List.filter_cons,
          if_neg (by simpa using hocc)]
      · intro j
        rw [hstep]
        exact ih2 j
      · intro j
        rw [hstep, ih3 j]
        by_cases hj : p.tcRnti % MAX_NOF_MSG3 = j
        · have hocc2 : ¬(msg3s.getD j default).harq.isEmpty = true := by
            rw [← hj]
            exact hocc
          rw [List.filter_cons,
            if_neg (by simp only [Bool.and_eq_true, decide_eq_true_eq]; rintro ⟨-, h2⟩; exact hocc2 h2)]
        · rw [List.filter_cons, if_neg (by simp [hj])]

theorem C7_duplicate_preamble_witness :
    busyMsg3s.length = MAX_NOF_MSG3 ∧
    (processPreambles busyMsg3s [] [preambleBusy, ⟨5, 0x4602, 3⟩]).2 = [0x4602] := by
  constructor
  · decide
  · have h := (C7_duplicate_preamble_suppression busyMsg3s []
      [preambleBusy, ⟨5, 0x4602, 3⟩] (by decide)).1
    rw [h]
    decide

/-- C5: partial-RAR bookkeeping in the pending-RAR loop.  For an in-window
pending RAR with `schedule_rar` returning `n`: `n = |tc_rntis|` removes the
RAR and continues with the next one; `0 < n < |tc_rntis|` drops exactly the
first `n` TC-RNTIs (keeping the order of the rest, `List.drop n`) and stops
the iteration; `n = 0` keeps the RAR unchanged and advances to the next
pending RAR. -/
theorem C5_partial_rar_bookkeeping (cfg : CellCfg) (slot : Nat) (r : PendingRar)
    (rest : List PendingRar) (st : RaState)
    (hin : r.winStart ≤ slot ∧ slot < r.winStop) :
    ((scheduleRar cfg r st).1 = r.tcRntis.length → 0 < r.tcRntis.length →
      processPendingRars cfg slot (r :: rest) st =
        ⟨(processPendingRars cfg slot rest (scheduleRar cfg r st).2).pending,
         (processPendingRars cfg slot rest (scheduleRar cfg r st).2).st,
         REvent.attempted r.raRnti (scheduleRar cfg r st).1 ::
           (processPendingRars cfg slot rest (scheduleRar cfg r st).2).trace⟩) ∧
    (0 < (scheduleRar cfg r st).1 → (scheduleRar cfg r st).1 < r.tcRntis.length →
      processPendingRars cfg slot (r :: rest) st =
        ⟨{ r with tcRntis := r.tcRntis.drop (scheduleRar cfg r st).1 } :: rest,
          (scheduleRar cfg r st).2,
          [REvent.attempted r.raRnti (scheduleRar cfg r st).1]⟩) ∧
    ((scheduleRar cfg r st).1 = 0 →
      processPendingRars cfg slot (r :: rest) st =
        ⟨r :: (processPendingRars cfg slot rest (scheduleRar cfg r st).2).pending,
         (processPendingRars cfg slot rest (scheduleRar cfg r st).2).st,
         REvent.attempted r.raRnti 0 ::
           (processPendingRars cfg slot rest (scheduleRar cfg r st).2).trace⟩) := by
  have hcond : ¬¬(r.winStart ≤ slot ∧ slot < r.winStop) := not_not_intro hin
  refine ⟨?_, ?_, ?_⟩
  · intro hn hpos
    simp only [processPendingRars]
    rw [if_neg hcond, if_pos (show 0 < (scheduleRar cfg r st).1 from hn ▸ hpos),
      if_pos hn]
  · intro hpos hlt
    simp only [processPendingRars]
    rw [if_neg hcond, if_pos hpos, if_neg (by omega)]
  · intro hz
    simp only [processPendingRars]
    rw [if_neg hcond, if_neg (by omega), hz]

theorem C5_partial_rar_witness :
    rarC1.winStart ≤ 100 ∧ 100 < rarC1.winStop ∧
    (scheduleRar cfgW rarC1 stC1).1 = rarC1.tcRntis.length ∧
    processPendingRars cfgW 100 [rarC1] stC1 =
      ⟨(processPendingRars cfgW 100 [] (scheduleRar cfgW rarC1 stC1).2).pending,
       (processPendingRars cfgW 100 [] (scheduleRar cfgW rarC1 stC1).2).st,
       REvent.attempted rarC1.raRnti (scheduleRar cfgW rarC1 stC1).1 ::
         (processPendingRars cfgW 100 [] (scheduleRar cfgW rarC1 stC1).2).trace⟩ :=
  ⟨by decide, by decide, rfl,
   (C5_partial_rar_bookkeeping cfgW 100 rarC1 [] stC1 ⟨by decide, by decide⟩).1
     rfl (by decide)⟩

theorem rarGrantsAt_set (res : List SlotAlloc) (k' : Nat) (x : SlotAlloc)
    (msg3s : List PendingMsg3) (k : Nat) :
    rarGrantsAt ⟨res.set k' x, msg3s⟩ k =
      if k' = k ∧ k' < res.length then x.rarGrants
      else rarGrantsAt ⟨res, msg3s⟩ k := by
  unfold rarGrantsAt getSlot
  rw [list_getD_set]
  split
  · rfl
  · rfl

theorem fillMsg3Candidate_rarGrants (cfg : CellCfg) (st : RaState)
    (ct : Msg3Candidate × Nat) (k : Nat) :
    rarGrantsAt (fillMsg3Candidate cfg st ct) k = rarGrantsAt st k := by
  show rarGrantsAt ⟨updateAt st.res _ _, _⟩ k = rarGrantsAt st k
  rw [updateAt, rarGrantsAt_set]
  split
  · rename_i hcond
    rw [← hcond.1]
    rfl
  · rfl

theorem foldl_fillMsg3_rarGrants (cfg : CellCfg) (pairs : List (Msg3Candidate × Nat)) :
    ∀ (st : RaState) (k : Nat),
      rarGrantsAt (pairs.foldl (fillMsg3Candidate cfg) st) k = rarGrantsAt st k := by
  induction pairs with
  | nil => intro st k; rfl
  | cons ct rest ih =>
    intro st k
    rw [List.foldl_cons, ih, fillMsg3Candidate_rarGrants]

theorem fillRarGrant_rarGrants (cfg : CellCfg) (rar : PendingRar) (rarCrbs : Interv)
    (cands : List Msg3Candidate) (st : RaState) (k : Nat) (g : RarInfo)
    (hg : g ∈ rarGrantsAt (fillRarGrant cfg rar rarCrbs cands st) k) :
    g ∈ rarGrantsAt st k ∨ g.raRnti = rar.raRnti := by
  unfold fillRarGrant at hg
  rw [foldl_fillMsg3_rarGrants] at hg
  unfold updateAt at hg
  rw [rarGrantsAt_set] at hg
  split at hg
  · rename_i hcond
    rw [List.mem_append] at hg
    rcases hg with hg | hg
    · left
      rw [← hcond.1]
      exact hg
    · right
      rw [List.mem_singleton] at hg
      rw [hg]
  · exact Or.inl hg

theorem scheduleRar_rarGrants (cfg : CellCfg) (rar : PendingRar) (st : RaState)
    (k : Nat) (g : RarInfo)
    (hg : g ∈ rarGrantsAt (scheduleRar cfg rar st).2 k) :
    g ∈ rarGrantsAt st k ∨ g.raRnti = rar.raRnti := by
  simp only [scheduleRar] at hg
  split at hg
  · exact Or.inl hg
  · split at hg
    · exact Or.inl hg
    · split at hg
      · exact Or.inl hg
      · rename_i pdcchAlloc' hpd
        have hg2 := fillRarGrant_rarGrants cfg rar _ _ _ k g hg
        rcases hg2 with hg2 | hg2
        · rw [rarGrantsAt_set] at hg2
          split at hg2
          · rename_i hcond
            left
            unfold allocPdcchCommon at hpd
            split at hpd
            · injection hpd with hpd
              rw [← hpd] at hg2
              rw [← hcond.1]
              exact hg2
            · cases hpd
          · exact Or.inl hg2
        · exact Or.inr hg2

theorem processPendingRars_committed (cfg : CellCfg) (slot : Nat) :
    ∀ (pending : List PendingRar) (st : RaState) (k : Nat) (g : RarInfo),
      g ∈ rarGrantsAt (processPendingRars cfg slot pending st).st k →
      g ∈ rarGrantsAt st k ∨
        ∃ r ∈ pending, (r.winStart ≤ slot ∧ slot < r.winStop) ∧ g.raRnti = r.raRnti := by
  intro pending
  induction pending with
  | nil =>
    intro st k g hg
    exact Or.inl hg
  | cons r rest ih =>
    intro st k g hg
    simp only [processPendingRars] at hg
    split at hg
    · split at hg
      · rcases ih st k g hg with h | ⟨r', hr', hw, he⟩
        · exact Or.inl h
        · exact Or.inr ⟨r', List.mem_cons_of_mem _ hr', hw, he⟩
      · exact Or.inl hg
    · rename_i hcont
      have hin : r.winStart ≤ slot ∧ slot < r.winStop := not_not.mp hcont
      split at hg
      · split at hg
        · rcases ih (scheduleRar cfg r st).2 k g hg with h | ⟨r', hr', hw, he⟩
          · rcases scheduleRar_rarGrants cfg r st k g h with h2 | h2
            · exact Or.inl h2
            · exact Or.inr ⟨r, List.mem_cons_self r rest, hin, h2⟩
          · exact Or.inr ⟨r', List.mem_cons_of_mem _ hr', hw, he⟩
        · rcases scheduleRar_rarGrants cfg r st k g hg with h2 | h2
          · exact Or.inl h2
          · exact Or.inr ⟨r, List.mem_cons_self r rest, hin, h2⟩
      · rcases ih (scheduleRar cfg r st).2 k g hg with h | ⟨r', hr', hw, he⟩
        · rcases scheduleRar_rarGrants cfg r st k g h with h2 | h2
          · exact Or.inl h2
          · exact Or.inr ⟨r, List.mem_cons_self r rest, hin, h2⟩
        · exact Or.inr ⟨r', List.mem_cons_of_mem _ hr', hw, he⟩

/-- C3: RAR window boundary in the pending-RAR loop of `run_slot`.  A
pending RAR whose window contains `slot_tx` is attempted (`schedule_rar`
invoked — in particular still at `slot_tx = stop − 1`); one with
`slot_tx ≥ stop` is erased with a log, without touching the slot state;
and every committed RAR grant either pre-existed or belongs to a pending
RAR whose window satisfies `start ≤ slot_tx < stop`. -/
theorem C3_rar_window_boundary (cfg : CellCfg) (slot : Nat) (r : PendingRar)
    (rest : List PendingRar) (st : RaState) :
    (r.winStart ≤ slot → slot < r.winStop →
      (processPendingRars cfg slot (r :: rest) st).trace.head? =
        some (REvent.attempted r.raRnti (scheduleRar cfg r st).1)) ∧
    (r.winStop ≤ slot →
      processPendingRars cfg slot (r :: rest) st =
        ⟨(processPendingRars cfg slot rest st).pending,
         (processPendingRars cfg slot rest st).st,
         REvent.discarded r.raRnti :: (processPendingRars cfg slot rest st).trace⟩) ∧
    (∀ (pending : List PendingRar) (st' : RaState) (k : Nat) (g : RarInfo),
      g ∈ rarGrantsAt (processPendingRars cfg slot pending st').st k →
      g ∈ rarGrantsAt st' k ∨
        ∃ rr ∈ pending, (rr.winStart ≤ slot ∧ slot < rr.winStop) ∧
          g.raRnti = rr.raRnti) := by
  refine ⟨?_, ?_, processPendingRars_committed cfg slot⟩
  · intro h1 h2
    simp only [processPendingRars]
    rw [if_neg (not_not_intro ⟨h1, h2⟩)]
    by_cases hn : 0 < (scheduleRar cfg r st).1
    · rw [if_pos hn]
      by_cases hfull : (scheduleRar cfg r st).1 = r.tcRntis.length
      · rw [if_pos hfull]
        rfl
      · rw [if_neg hfull]
        rfl
    · rw [if_neg hn]
      rfl
  · intro hstop
    simp only [processPendingRars]
    rw [if_pos (show ¬(r.winStart ≤ slot ∧ slot < r.winStop) from
          fun hc => absurd hc.2 (Nat.not_lt.mpr hstop)),
      if_pos hstop]

theorem C3_rar_window_witness :
    rarC1.winStart ≤ 104 ∧ 104 < rarC1.winStop ∧
    (processPendingRars cfgW 104 [rarC1] stC1).trace.head? =
      some (REvent.attempted rarC1.raRnti (scheduleRar cfgW rarC1 stC1).1) :=
  ⟨by decide, by decide,
   (C3_rar_window_boundary cfgW 104 rarC1 [] stC1).1 (by decide) (by decide)⟩
